import Mathlib

/-!
# Karbos: verification of the carbon-aware batch scheduler core

Shallow embedding of the Karbos server core (Go) into Lean 4:

* instants (`time.Time`) are epoch seconds as `Int`, with `0` standing for
  Go's zero value (`IsZero`);
* durations (`time.Duration`) are seconds as `Int`;
* carbon intensities (`float64`) are embedded as `ℚ`;
* fallible calls (`(T, error)`) become `Except String T` or `Option`;
* external collaborators (carbon provider, container runtime, SQL store)
  are passed in as explicit outcome values, so every function is a pure,
  executable transformer of states and responses.
-/

namespace Karbos

/-- One second, one minute, one hour in the embedded time unit. -/
def secondsPerHour : Int := 3600

/-- Go `carbon.CarbonIntensity` (carbon_service.go): one intensity sample. -/
structure CarbonIntensity where
  region : String
  timestamp : Int
  intensity : ℚ
  unit : String
  fossilFuel : ℚ := 0
  renewableEnergy : ℚ := 0
  deriving Repr, DecidableEq, Inhabited

/-! ## Scheduler (`server/internal/scheduler/scheduler.go`) -/

/-- Go `scheduler.ScheduleRequest`. A `0` in `deadline`, `windowSize` or
`minStartTime` models the Go zero value (`time.Time.IsZero`, zero duration). -/
structure ScheduleRequest where
  region : String
  duration : Int
  deadline : Int
  windowSize : Int := 0
  minStartTime : Int := 0
  deriving Repr, DecidableEq

/-- Go `scheduler.TimeWindow`. -/
structure TimeWindow where
  startTime : Int
  endTime : Int
  avgIntensity : ℚ
  carbonCost : ℚ
  deriving Repr, DecidableEq, Inhabited

/-- Go `scheduler.ScheduleResult`. -/
structure ScheduleResult where
  scheduledTime : Int
  expectedIntensity : ℚ
  immediate : Bool
  carbonSavings : ℚ
  alternativeWindows : List TimeWindow := []
  deriving Repr, DecidableEq

/-- The scheduler's tunables: `CarbonScheduler.slotDuration` and
`CarbonScheduler.threshold` (defaults 1 hour and 400 in `NewCarbonScheduler`). -/
structure SchedulerConfig where
  slotDuration : Int := secondsPerHour
  threshold : ℚ := 400
  deriving Repr, DecidableEq

/-- Go `CarbonScheduler.validateRequest`: returns the first failing check's
error message, if any.  The last check runs only when both `MinStartTime`
and `Deadline` are set (non-zero). -/
def validateRequest (now : Int) (req : ScheduleRequest) : Option String :=
  if req.region = "" then some "region is required"
  else if req.duration ≤ 0 then some "duration must be positive"
  else if req.deadline ≠ 0 ∧ req.deadline < now then
    some "deadline must be in the future"
  else if req.minStartTime ≠ 0 ∧ req.deadline ≠ 0 ∧
      req.minStartTime + req.duration > req.deadline then
    some "not enough time between min start time and deadline"
  else none

/-- Go `CarbonScheduler.calculateAverageIntensity`: arithmetic mean, `0` on an
empty slice. -/
def calculateAverageIntensity (slots : List CarbonIntensity) : ℚ :=
  if slots.length = 0 then 0
  else (slots.map (fun s => s.intensity)).sum / (slots.length : ℚ)

/-- Go `CarbonScheduler.buildTimeSlots`: keep forecast points with
`minStart ≤ timestamp ≤ deadline`. -/
def buildTimeSlots (forecast : List CarbonIntensity) (minStart deadline : Int) :
    List CarbonIntensity :=
  forecast.filter (fun p => ¬ p.timestamp < minStart ∧ ¬ deadline < p.timestamp)

/-- The `TimeWindow` the Go loop builds from `slots[i : i+k]`
(`windowSlice[0].Timestamp`, last timestamp plus one slot, the mean, and
`mean * duration.Hours()`). -/
def windowOf (slotDuration duration : Int) (slots : List CarbonIntensity)
    (i k : Nat) : TimeWindow :=
  let ws := (slots.drop i).take k
  let avg := calculateAverageIntensity ws
  { startTime := (ws.headI).timestamp
    endTime := (ws.getLast?.getD default).timestamp + slotDuration
    avgIntensity := avg
    carbonCost := avg * ((duration : ℚ) / (secondsPerHour : ℚ)) }

/-- Mean intensity of the window of `k` slots starting at index `i`. -/
def windowMean (slots : List CarbonIntensity) (i k : Nat) : ℚ :=
  calculateAverageIntensity ((slots.drop i).take k)

/-- Accumulator of the sliding-window loop: the current optimal window with
its starting index (`none` models the `math.MaxFloat64` sentinel before the
first window is seen) and the collected near-optimal alternatives. -/
structure SlideAcc where
  best : Option (Nat × TimeWindow)
  alts : List TimeWindow
  deriving Repr, DecidableEq

/-- One iteration of the sliding-window loop in
`CarbonScheduler.findOptimalWindow`: a strictly smaller mean replaces the
optimum and resets the alternatives; a mean within 10 of the optimum is
appended to the alternatives; anything else is dropped. -/
def slideStep (slotDuration duration : Int) (slots : List CarbonIntensity)
    (k : Nat) (acc : SlideAcc) (i : Nat) : SlideAcc :=
  let w := windowOf slotDuration duration slots i k
  match acc.best with
  | none => { best := some (i, w), alts := [] }
  | some (_bi, bw) =>
    if w.avgIntensity < bw.avgIntensity then
      { best := some (i, w), alts := [] }
    else if |w.avgIntensity - bw.avgIntensity| < 10 then
      { acc with alts := acc.alts ++ [w] }
    else acc

/-- The whole sliding-window loop (`for i := 0; i <= len(slots)-windowSlots; i++`). -/
def slideRun (slotDuration duration : Int) (slots : List CarbonIntensity)
    (k : Nat) : SlideAcc :=
  (List.range (slots.length - k + 1)).foldl
    (slideStep slotDuration duration slots k) ⟨none, []⟩

/-- Go `int(math.Ceil(float64(duration) / float64(slotDuration)))` for positive
operands. -/
def windowSlotsOf (duration slotDuration : Int) : Nat :=
  ((duration + slotDuration - 1) / slotDuration).toNat

/-- Go `CarbonScheduler.findOptimalWindow`.  When the job duration exceeds the
forecast range the entire range is the single candidate window (Go indexes
`slots[0]` there, so on an empty slot list the Go code panics; the embedding
returns default-valued fields in that unreachable corner). -/
def findOptimalWindow (cfg : SchedulerConfig) (forecast : List CarbonIntensity)
    (duration minStart deadline : Int) : TimeWindow × List TimeWindow :=
  let slots := buildTimeSlots forecast minStart deadline
  let windowSlots := windowSlotsOf duration cfg.slotDuration
  if slots.length < windowSlots then
    let avg := calculateAverageIntensity slots
    ({ startTime := (slots.headI).timestamp
       endTime := (slots.getLast?.getD default).timestamp + cfg.slotDuration
       avgIntensity := avg
       carbonCost := avg * ((duration : ℚ) / (secondsPerHour : ℚ)) }, [])
  else
    let acc := slideRun cfg.slotDuration duration slots windowSlots
    ((acc.best.getD (0, default)).2, acc.alts.take 3)

/-- Go `CarbonScheduler.Schedule`.  `now` stands for the `time.Now()` calls;
the two fetcher calls are passed in as their outcomes.  The immediacy test
transcribes the Go condition literally: `time.Since(optimalWindow.StartTime)`
is `now - optimalWindow.startTime` — with no absolute value. -/
def schedule (cfg : SchedulerConfig) (now : Int) (req : ScheduleRequest)
    (forecastResult : Except String (List CarbonIntensity))
    (currentResult : Except String CarbonIntensity) :
    Except String ScheduleResult :=
  match validateRequest now req with
  | some e => .error e
  | none =>
    let windowSize := if req.windowSize = 0 then 24 * secondsPerHour else req.windowSize
    let minStart := if req.minStartTime = 0 then now else req.minStartTime
    let endTime0 := minStart + windowSize
    let endTime := if req.deadline < endTime0 then req.deadline else endTime0
    match forecastResult with
    | .error e => .error ("failed to get carbon forecast: " ++ e)
    | .ok forecast =>
      if forecast.length = 0 then
        match currentResult with
        | .error e => .error ("failed to get current carbon intensity: " ++ e)
        | .ok current =>
          .ok { scheduledTime := now
                expectedIntensity := current.intensity
                immediate := true
                carbonSavings := 0 }
      else
        let (optimalWindow, alternativeWindows) :=
          findOptimalWindow cfg forecast req.duration minStart endTime
        let currentIntensity := (forecast.headI).intensity
        let carbonSavings := currentIntensity - optimalWindow.avgIntensity
        let savingsPercent := carbonSavings / currentIntensity * 100
        let immediate :=
          decide (now - optimalWindow.startTime < 5 * 60) ||
          decide (savingsPercent < 10) ||
          decide (currentIntensity < cfg.threshold)
        let scheduledTime := if immediate then now else optimalWindow.startTime
        .ok { scheduledTime := scheduledTime
              expectedIntensity := optimalWindow.avgIntensity
              immediate := immediate
              carbonSavings := carbonSavings
              alternativeWindows := alternativeWindows }

/-- The E1 scenario's forecast: hourly values 450, 410, 370, 260, 290, 320
at 14:00 … 19:00, written as seconds of the day, region `US-EAST`. -/
def e1Forecast : List CarbonIntensity :=
  [⟨"US-EAST", 50400, 450, "gCO2eq/kWh", 0, 0⟩,
   ⟨"US-EAST", 54000, 410, "gCO2eq/kWh", 0, 0⟩,
   ⟨"US-EAST", 57600, 370, "gCO2eq/kWh", 0, 0⟩,
   ⟨"US-EAST", 61200, 260, "gCO2eq/kWh", 0, 0⟩,
   ⟨"US-EAST", 64800, 290, "gCO2eq/kWh", 0, 0⟩,
   ⟨"US-EAST", 68400, 320, "gCO2eq/kWh", 0, 0⟩]

/-- The E1 request: duration 60 min, deadline 20:00, defaults elsewhere. -/
def e1Request : ScheduleRequest :=
  { region := "US-EAST", duration := 3600, deadline := 72000 }

/-! ## Circuit breaker (`circuit_breaker.go`) -/

/-- Go `carbon.CircuitState`. The Go constant `StateOpen` is rendered
`opened` because `open` is a Lean keyword. -/
inductive CircuitState where
  | closed
  | opened
  | halfOpen
  deriving Repr, DecidableEq, Inhabited

/-- Go `carbon.CircuitBreakerConfig`, with the defaults `NewCircuitBreaker`
substitutes for zero values. -/
structure CircuitBreakerConfig where
  maxFailures : Nat := 5
  timeout : Int := 30
  resetTimeout : Int := 10
  staticFallback : ℚ := 400
  staticRegion : String := "GLOBAL-AVERAGE"
  deriving Repr, DecidableEq

/-- Mutable fields of Go `carbon.CircuitBreaker` (under its lock). -/
structure CircuitBreakerState where
  state : CircuitState := .closed
  failures : Nat := 0
  lastFailTime : Int := 0
  lastStateTime : Int := 0
  successCount : Nat := 0
  deriving Repr, DecidableEq

/-- The state `NewCircuitBreaker` constructs (`lastStateTime = time.Now()`). -/
def initialBreakerState (t0 : Int) : CircuitBreakerState :=
  { state := .closed, failures := 0, lastFailTime := 0,
    lastStateTime := t0, successCount := 0 }

/-- Go `CircuitBreaker.canAttempt`: whether the request may reach the
provider, together with the possibly-updated state (Open transitions to
HalfOpen once `Timeout` has elapsed since the last state change). -/
def canAttempt (cfg : CircuitBreakerConfig) (s : CircuitBreakerState)
    (now : Int) : Bool × CircuitBreakerState :=
  match s.state with
  | .closed => (true, s)
  | .opened =>
    if cfg.timeout ≤ now - s.lastStateTime then
      (true, { s with state := .halfOpen, lastStateTime := now, successCount := 0 })
    else
      (false, s)
  | .halfOpen => (true, s)

/-- Go `CircuitBreaker.recordFailure`. -/
def recordFailure (cfg : CircuitBreakerConfig) (s : CircuitBreakerState)
    (now : Int) : CircuitBreakerState :=
  let s1 := { s with failures := s.failures + 1, lastFailTime := now }
  match s.state with
  | .closed =>
    if cfg.maxFailures ≤ s1.failures then
      { s1 with state := .opened, lastStateTime := now }
    else s1
  | .halfOpen =>
    { s1 with state := .opened, lastStateTime := now, failures := cfg.maxFailures }
  | .opened => s1

/-- Go `CircuitBreaker.recordSuccess`. -/
def recordSuccess (s : CircuitBreakerState) (now : Int) : CircuitBreakerState :=
  match s.state with
  | .closed => { s with failures := 0 }
  | .halfOpen =>
    { s with successCount := s.successCount + 1, state := .closed,
             failures := 0, lastStateTime := now }
  | .opened => s

/-- Go `CircuitBreaker.Reset`: administrative return to Closed. -/
def resetBreaker (s : CircuitBreakerState) (now : Int) : CircuitBreakerState :=
  { s with state := .closed, failures := 0, successCount := 0, lastStateTime := now }

/-- Go `CircuitBreaker.fallbackIntensity`: the static point fallback. -/
def fallbackIntensity (cfg : CircuitBreakerConfig) (region : String)
    (timestamp : Int) : CarbonIntensity :=
  { region := region, timestamp := timestamp,
    intensity := cfg.staticFallback, unit := "gCO2eq/kWh" }

/-- Number of iterations of the `for current.Before(endTime)` loop in
`fallbackForecast`: the hourly steps from `start` strictly below `end`. -/
def fallbackHourCount (startTime endTime : Int) : Nat :=
  ((endTime - startTime + 3599) / 3600).toNat

/-- Go `CircuitBreaker.fallbackForecast`: hourly static samples at
`start, start+1h, …` while strictly before `end`. -/
def fallbackForecast (cfg : CircuitBreakerConfig) (region : String)
    (startTime endTime : Int) : List CarbonIntensity :=
  (List.range (fallbackHourCount startTime endTime)).map fun (i : Nat) =>
    { region := region, timestamp := startTime + 3600 * (i : Int),
      intensity := cfg.staticFallback, unit := "gCO2eq/kWh" }

/-- Outcome of one breaker-guarded provider call: the value or error
returned to the caller, the new breaker state, and whether the underlying
provider was actually invoked. -/
structure BreakerCall (α : Type) where
  result : Except String α
  state : CircuitBreakerState
  providerCalled : Bool
  deriving Repr

/-- Go `CircuitBreaker.GetCarbonIntensity`: the provider's response (when a
call would be issued) is passed in as `svc`. -/
def breakerGetCarbonIntensity (cfg : CircuitBreakerConfig)
    (s : CircuitBreakerState) (now : Int) (region : String) (timestamp : Int)
    (svc : Except String CarbonIntensity) : BreakerCall CarbonIntensity :=
  let (allow, s1) := canAttempt cfg s now
  if allow then
    match svc with
    | .error _e =>
      -- the provider error is absorbed, never surfaced
      { result := .ok (fallbackIntensity cfg region timestamp)
        state := recordFailure cfg s1 now
        providerCalled := true }
    | .ok v =>
      { result := .ok v, state := recordSuccess s1 now, providerCalled := true }
  else
    { result := .ok (fallbackIntensity cfg region timestamp)
      state := s1, providerCalled := false }

/-- Go `CircuitBreaker.GetCarbonForecast`. -/
def breakerGetCarbonForecast (cfg : CircuitBreakerConfig)
    (s : CircuitBreakerState) (now : Int) (region : String)
    (startTime endTime : Int)
    (svc : Except String (List CarbonIntensity)) :
    BreakerCall (List CarbonIntensity) :=
  let (allow, s1) := canAttempt cfg s now
  if allow then
    match svc with
    | .error _ =>
      { result := .ok (fallbackForecast cfg region startTime endTime)
        state := recordFailure cfg s1 now
        providerCalled := true }
    | .ok v =>
      { result := .ok v, state := recordSuccess s1 now, providerCalled := true }
  else
    { result := .ok (fallbackForecast cfg region startTime endTime)
      state := s1, providerCalled := false }

/-! ## Carbon fetcher (`server/internal/carbon/carbon_fetcher.go`),
composed with the breaker the way `main.go` wires it:
`NewCarbonFetcher(wrapWithCircuitBreaker(client), cacheWrapper, ttl)`. -/

/-- Go `carbon.CarbonCacheEntry`. -/
structure CarbonCacheEntry where
  region : String
  timestamp : Int
  intensity : ℚ
  unit : String
  fetchedAt : Int
  expiresAt : Int
  deriving Repr, DecidableEq

/-- Go `CarbonCacheRepository.IsCacheFresh` (carbon_cache_repository.go):
`time.Since(entry.FetchedAt) < maxAge && time.Now().Before(entry.ExpiresAt)`. -/
def isCacheFresh (now : Int) (entry : CarbonCacheEntry) (maxAge : Int) : Bool :=
  decide (now - entry.fetchedAt < maxAge) && decide (now < entry.expiresAt)

/-- Conversion of a cache row to the `CarbonIntensity` shape, as done inline
in `CarbonFetcher.GetCarbonIntensity`. -/
def entryToIntensity (e : CarbonCacheEntry) : CarbonIntensity :=
  { region := e.region, timestamp := e.timestamp,
    intensity := e.intensity, unit := e.unit }

/-- Fetcher tunables (`NewCarbonFetcher`: `maxCacheAge = cacheTTL`,
default one hour). -/
structure FetcherConfig where
  cacheTTL : Int := 3600
  maxCacheAge : Int := 3600
  deriving Repr, DecidableEq

/-- The cache lookup's effective value in the fetcher: a cache error is
logged and treated as a miss (`nil` entry). -/
def cachedEntryOf (cacheResult : Except String (Option CarbonCacheEntry)) :
    Option CarbonCacheEntry :=
  match cacheResult with
  | .error _ => none
  | .ok e => e

/-- Outcome of a fetcher point query: the returned value or error, the new
breaker state, and the cache write the fetcher issued (if any). -/
structure FetcherCall where
  result : Except String CarbonIntensity
  breaker : CircuitBreakerState
  cacheWrite : Option CarbonIntensity
  deriving Repr

/-- Go `CarbonFetcher.GetCarbonIntensity` with the circuit breaker as its
`service` (the production wiring): cache-first, then the breaker-guarded
provider call; the stale-cache fallback fires only when the service call
returns an error. -/
def fetcherGetCarbonIntensity (fc : FetcherConfig) (cfg : CircuitBreakerConfig)
    (cbs : CircuitBreakerState) (now : Int) (region : String) (timestamp : Int)
    (cacheResult : Except String (Option CarbonCacheEntry))
    (svc : Except String CarbonIntensity) : FetcherCall :=
  let cachedEntry := cachedEntryOf cacheResult
  match cachedEntry with
  | some e =>
    if isCacheFresh now e fc.maxCacheAge then
      { result := .ok (entryToIntensity e), breaker := cbs, cacheWrite := none }
    else
      let bc := breakerGetCarbonIntensity cfg cbs now region timestamp svc
      match bc.result with
      | .error _err =>
        -- unreachable with the breaker as service: it never errors
        { result := .ok (entryToIntensity e), breaker := bc.state,
          cacheWrite := none }
      | .ok v =>
        { result := .ok v, breaker := bc.state, cacheWrite := some v }
  | none =>
    let bc := breakerGetCarbonIntensity cfg cbs now region timestamp svc
    match bc.result with
    | .error err =>
      { result := .error ("failed to fetch carbon intensity from API: " ++ err)
        breaker := bc.state, cacheWrite := none }
    | .ok v =>
      { result := .ok v, breaker := bc.state, cacheWrite := some v }

/-! ## Job store (`server/internal/database/job_repository.go`) -/

/-- Go `models.JobStatus`. -/
inductive JobStatus where
  | pending
  | delayed
  | running
  | completed
  | failed
  deriving Repr, DecidableEq, Inhabited

/-- The columns of a `jobs` row the core reads and writes. -/
structure JobRow where
  userId : String := ""
  dockerImage : String := ""
  status : JobStatus := .pending
  scheduledTime : Option Int := none
  deadline : Int := 0
  estimatedDuration : Option Int := none
  region : Option String := none
  createdAt : Int := 0
  deriving Repr, DecidableEq

/-- The `jobs` table, keyed by job id. -/
abbrev JobsDB := List (Nat × JobRow)

/-- Go `JobRepository.GetJobByID`: `sql.ErrNoRows` becomes the
`job not found` error. -/
def getJobByID (db : JobsDB) (id : Nat) : Except String JobRow :=
  match db.find? (fun r => r.1 = id) with
  | none => .error "job not found"
  | some r => .ok r.2

/-- Go `JobRepository.UpdateJobStatus`: an unconditional
`UPDATE jobs SET status = $1 WHERE id = $2`; the only failure mode is
`rowsAffected == 0` (no such job).  No lifecycle transition guard exists. -/
def updateJobStatus (db : JobsDB) (id : Nat) (status : JobStatus) :
    Except String JobsDB :=
  if (db.filter (fun r => r.1 = id)).length = 0 then .error "job not found"
  else .ok (db.map fun r =>
    if r.1 = id then (r.1, { r.2 with status := status }) else r)

/-! ## Container runtime (`server/internal/docker/docker.go`) -/

deriving instance DecidableEq for Except

/-- Go `docker.ContainerResult`.  The `Error` field is `Option`-valued to
model the Go `error` interface being nil or not. -/
structure ContainerResult where
  output : String := ""
  exitCode : Int := 0
  duration : Int := 0
  startedAt : Int := 0
  error : Option String := none
  deriving Repr, DecidableEq

/-- Outcome of `client.ContainerWait`'s three-way `select`. -/
inductive WaitOutcome where
  | waitErr (e : String)
  | exited (code : Int)
  | ctxCancelled
  deriving Repr, DecidableEq

/-- Responses of the Docker daemon for one `RunContainer` call, passed in as
an oracle so `runContainer` is a pure function of them. -/
structure DockerEnv where
  pullError : Option String := none
  createResult : Except String String := .ok "cid"
  startError : Option String := none
  waitOutcome : WaitOutcome := .exited 0
  logsError : Option String := none
  stdcopyResult : Except String (String × String) := .ok ("", "")
  deriving Repr, DecidableEq

/-- Go `Service.RunContainer`.  `now` is the initial `time.Now()` and
`finish` the one taken for `result.Duration`.  Returns the
`(*ContainerResult, error)` pair; `none` in the first component would model
a nil result pointer — the definition shows it never occurs. -/
def runContainer (env : DockerEnv) (now finish : Int) :
    Option ContainerResult × Option String :=
  let result : ContainerResult := { startedAt := now }
  match env.pullError with
  | some e => (some { result with error := some e }, some e)
  | none =>
    match env.createResult with
    | .error e =>
      let msg := "failed to create container: " ++ e
      (some { result with error := some msg }, some msg)
    | .ok _cid =>
      match env.startError with
      | some e =>
        let msg := "failed to start container: " ++ e
        (some { result with error := some msg }, some msg)
      | none =>
        match env.waitOutcome with
        | .waitErr e =>
          let msg := "error waiting for container: " ++ e
          (some { result with error := some msg }, some msg)
        | .ctxCancelled =>
          let msg := "context cancelled while waiting for container"
          (some { result with error := some msg }, some msg)
        | .exited code =>
          let result := { result with exitCode := code }
          match env.logsError with
          | some e =>
            let msg := "failed to get container logs: " ++ e
            (some { result with error := some msg }, some msg)
          | none =>
            match env.stdcopyResult with
            | .error e =>
              let msg := "failed to read container logs: " ++ e
              (some { result with error := some msg }, some msg)
            | .ok (stdout, stderr) =>
              let output := if stdout ≠ "" then stdout else ""
              let output :=
                if stderr ≠ "" then
                  (if output ≠ "" then output ++ "\n--- STDERR ---\n" else output)
                    ++ stderr
                else output
              (some { result with output := output, duration := finish - now },
               none)

/-! ## Worker consumer (`server/internal/worker/consumer.go`) -/

/-- Go `models.ExecutionLog`, as filled by `executeJob`. -/
structure ExecutionLog where
  jobId : Nat
  startedAt : Int
  exitCode : Int
  duration : Int
  errorMessage : Option String := none
  output : String := ""
  completedAt : Option Int := none
  deriving Repr, DecidableEq

/-- Observable outcome of one `Consumer.executeJob` call: the store after
the call, whether `RunContainer` was invoked, the execution log written,
whether the worker dereferenced a nil `ContainerResult` (a Go panic), and
the error returned. -/
structure ExecOutcome where
  db : JobsDB
  containerExecuted : Bool
  logWritten : Option ExecutionLog
  nilDeref : Bool
  result : Except String Unit
  deriving Repr, DecidableEq

/-- Go `Consumer.executeJob`: fetch the job, unconditionally transition to
RUNNING, run the container, write the log, set the final status.  There is
no check that the fetched job's status is non-terminal.  The worker reads
`result.ExitCode` and `result.Duration` before inspecting `err`, so a nil
result would panic (`nilDeref`). -/
def executeJob (db : JobsDB) (jobId : Nat) (env : DockerEnv)
    (now finish : Int) : ExecOutcome :=
  match getJobByID db jobId with
  | .error e =>
    { db := db, containerExecuted := false, logWritten := none,
      nilDeref := false, result := .error ("failed to fetch job: " ++ e) }
  | .ok _job =>
    match updateJobStatus db jobId .running with
    | .error e =>
      { db := db, containerExecuted := false, logWritten := none,
        nilDeref := false,
        result := .error ("failed to update job status to RUNNING: " ++ e) }
    | .ok db1 =>
      match runContainer env now finish with
      | (none, _) =>
        { db := db1, containerExecuted := true, logWritten := none,
          nilDeref := true, result := .error "panic: nil ContainerResult" }
      | (some res, err) =>
        let log0 : ExecutionLog :=
          { jobId := jobId, startedAt := now,
            exitCode := res.exitCode, duration := res.duration }
        let (finalStatus, log1) :=
          if err.isSome || res.error.isSome then
            let errorMsg :=
              match err with
              | some e => e
              | none => res.error.getD ""
            (JobStatus.failed,
             { log0 with errorMessage := some errorMsg, output := res.output })
          else if res.exitCode ≠ 0 then
            (JobStatus.failed,
             { log0 with
                errorMessage :=
                  some ("Container exited with code " ++ toString res.exitCode)
                output := res.output })
          else
            (JobStatus.completed, { log0 with output := res.output })
        let log2 := { log1 with completedAt := some finish }
        match updateJobStatus db1 jobId finalStatus with
        | .error e =>
          { db := db1, containerExecuted := true, logWritten := some log2,
            nilDeref := false,
            result := .error ("failed to update final job status: " ++ e) }
        | .ok db2 =>
          { db := db2, containerExecuted := true, logWritten := some log2,
            nilDeref := false, result := .ok () }

/-! ## HTTP handlers (`server/internal/handlers/job_handler.go`) -/

/-- Fields of Go `models.SubmitJobRequest` the handler reads; `deadline` is
the raw string of the request body. -/
structure SubmitJobRequest where
  userID : String
  dockerImage : String
  deadline : String
  estimatedDuration : Option Int := none
  region : Option String := none
  deriving Repr, DecidableEq

/-- Fields of Go `models.SubmitJobResponse` relevant to scheduling. -/
structure SubmitJobResponse where
  status : JobStatus := .pending
  scheduledTime : Int := 0
  immediate : Bool := true
  expectedIntensity : ℚ := 0
  carbonSavings : ℚ := 0
  message : String := ""
  deriving Repr, DecidableEq

/-- An error envelope with its HTTP status code. -/
structure HttpError where
  error : String
  code : Nat
  deriving Repr, DecidableEq

/-- Go `JobHandler.SubmitJob`.  `parseDeadline` stands for
`time.Parse(time.RFC3339, ·)` (`none` = parse failure); the scheduler's two
fetcher calls are passed through; `storeOk` is the `CreateJob` outcome.  On
a scheduler error the handler logs and continues with immediate execution;
queue failures after the store write are logged only, so the submission is
still accepted (201). -/
def submitJob (now : Int) (req : SubmitJobRequest) (cfg : SchedulerConfig)
    (parseDeadline : String → Option Int)
    (forecastResult : Except String (List CarbonIntensity))
    (currentResult : Except String CarbonIntensity)
    (dryRun : Bool) (storeOk : Bool) :
    Except HttpError (SubmitJobResponse × Option JobRow) :=
  if req.userID = "" ∨ req.dockerImage = "" ∨ req.deadline = "" then
    .error { error := "validation_error", code := 400 }
  else
    match parseDeadline req.deadline with
    | none => .error { error := "invalid_deadline", code := 400 }
    | some deadline =>
      if deadline < now then
        .error { error := "invalid_deadline", code := 400 }
      else
        let region :=
          match req.region with
          | some r => if r ≠ "" then r else "US-EAST"
          | none => "US-EAST"
        let estimatedDuration :=
          match req.estimatedDuration with
          | some d => if 0 < d then d else 600
          | none => 600
        let schedReq : ScheduleRequest :=
          { region := region, duration := estimatedDuration,
            deadline := deadline, windowSize := 24 * secondsPerHour }
        let (scheduledTime0, immediate, expectedIntensity, carbonSavings) :=
          match schedule cfg now schedReq forecastResult currentResult with
          | .error _ => ((0 : Int), true, (0 : ℚ), (0 : ℚ))
          | .ok r => (r.scheduledTime, r.immediate, r.expectedIntensity,
                      r.carbonSavings)
        let scheduledTime := if scheduledTime0 = 0 then now else scheduledTime0
        let job : JobRow :=
          { userId := req.userID, dockerImage := req.dockerImage,
            status := .pending, deadline := deadline,
            estimatedDuration := req.estimatedDuration,
            region := some region, scheduledTime := some scheduledTime,
            createdAt := now }
        if dryRun then
          .ok ({ status := .pending, scheduledTime := scheduledTime,
                 immediate := immediate,
                 expectedIntensity := expectedIntensity,
                 carbonSavings := carbonSavings,
                 message := "Dry run - job not created" }, none)
        else if ¬ storeOk then
          .error { error := "database_error", code := 500 }
        else
          .ok ({ status := .pending, scheduledTime := scheduledTime,
                 immediate := immediate,
                 expectedIntensity := expectedIntensity,
                 carbonSavings := carbonSavings,
                 message :=
                   if immediate then "Job submitted successfully"
                   else "Job scheduled for optimal carbon efficiency" },
               some job)

/-- Go `JobHandler.GetAllJobs` limit handling:
`limit := c.QueryInt("limit", 100); if limit <= 0 || limit > 500 \x7b limit = 100 \x7d`. -/
def getAllJobsLimit (requested : Option Int) : Int :=
  let limit := requested.getD 100
  if limit ≤ 0 ∨ 500 < limit then 100 else limit

/-- Go `JobHandler.GetUserJobs` limit handling:
`limit := c.QueryInt("limit", 50); if limit <= 0 || limit > 100 \x7b limit = 50 \x7d`. -/
def getUserJobsLimit (requested : Option Int) : Int :=
  let limit := requested.getD 50
  if limit ≤ 0 ∨ 100 < limit then 50 else limit

/-! ## Concrete test inputs used by the counterexamples and witnesses -/

/-- A submission with a deadline only 60 seconds away and no explicit
duration (so the 10-minute default applies). -/
def c3Request : SubmitJobRequest :=
  { userID := "demo-user", dockerImage := "python:3.11",
    deadline := "2025-12-04T14:01:00Z" }

/-- RFC3339 parse oracle for `c3Request` with `now = 0`: the deadline
parses to 60 seconds from now. -/
def c3Parse : String → Option Int :=
  fun s => if s = "2025-12-04T14:01:00Z" then some 60 else none

/-- The response `SubmitJob` produces for `c3Request`. -/
def c3Response : SubmitJobResponse :=
  { status := .pending, scheduledTime := 0, immediate := true,
    expectedIntensity := 0, carbonSavings := 0,
    message := "Job submitted successfully" }

/-- The job row `SubmitJob` persists for `c3Request`. -/
def c3Job : JobRow :=
  { userId := "demo-user", dockerImage := "python:3.11", status := .pending,
    deadline := 60, estimatedDuration := none, region := some "US-EAST",
    scheduledTime := some 0, createdAt := 0 }

/-- A store holding one already-Completed job. -/
def c4DB : JobsDB := [(1, { status := .completed })]

/-- A store holding one already-Completed job under id 7. -/
def c5DB : JobsDB := [(7, { status := .completed })]

/-- A stale-but-present cache entry: intensity 350, fetched two hours ago
relative to `now = 0`, expired one hour ago. -/
def c8StaleEntry : CarbonCacheEntry :=
  { region := "US-EAST", timestamp := 0, intensity := 350,
    unit := "gCO2eq/kWh", fetchedAt := -7200, expiresAt := -3600 }

/-- A breaker that opened one second ago (timeout not yet elapsed at
`now = 0`). -/
def c8OpenBreaker : CircuitBreakerState :=
  { state := .opened, failures := 5, lastFailTime := -1, lastStateTime := -1 }

/-! ## Theorems -/

/-- C1: the claim fails on the code — a code bug.  At the E1 input
(forecast 450, 410, 370, 260, 290, 320 hourly from 14:00, duration 60 min,
deadline 20:00, threshold 400, `now` = 14:00 = 50400) the optimal window is
correctly found at 17:00 with mean 260 and savings 190, but `Schedule`
returns an *immediate* decision at `now`, not the *scheduled* decision at
17:00 the claim (and the spec's E1) requires: `time.Since(optimalStart)` is
`now − optimalStart` with no absolute value, which is negative — hence
`< 5 minutes` — for every future optimal start. -/
theorem e1_schedule_returns_immediate_not_scheduled :
    schedule {} 50400 e1Request (.ok e1Forecast) (.ok default) =
      .ok { scheduledTime := 50400, expectedIntensity := 260,
            immediate := true, carbonSavings := 190,
            alternativeWindows := [] } := by
  have hr : List.range 6 = [0, 1, 2, 3, 4, 5] := by decide
  simp [schedule, e1Request, e1Forecast, validateRequest, findOptimalWindow,
    buildTimeSlots, windowSlotsOf, slideRun, slideStep, windowOf, windowMean,
    calculateAverageIntensity, secondsPerHour, hr]
  norm_num

/-- C9, counterexample: a `listAll` limit of 501 is reset to the default
100, not clamped to the stated maximum 500; a `listByUser` limit of 101 is
reset to the default 50, not clamped to 100. -/
theorem list_limits_not_clamped_to_maxima :
    getAllJobsLimit (some 501) = 100 ∧ getAllJobsLimit (some 501) ≠ 500 ∧
    getUserJobsLimit (some 101) = 50 ∧ getUserJobsLimit (some 101) ≠ 100 := by
  decide

/-- C9, amended: every requested `listAll` limit above 500 yields the
effective limit 100 (the default), and every requested `listByUser` limit
above 100 yields 50 (the default). -/
theorem list_limits_above_max_reset_to_default (l : Int) :
    (500 < l → getAllJobsLimit (some l) = 100) ∧
    (100 < l → getUserJobsLimit (some l) = 50) := by
  constructor
  · intro h
    simp only [getAllJobsLimit, Option.getD_some]
    rw [if_pos (Or.inr h)]
  · intro h
    simp only [getUserJobsLimit, Option.getD_some]
    rw [if_pos (Or.inr h)]

/-- C9, witness for the amended theorem at limits 501 and 101. -/
theorem list_limits_above_max_reset_to_default_witness :
    getAllJobsLimit (some 501) = 100 ∧ getUserJobsLimit (some 101) = 50 :=
  ⟨(list_limits_above_max_reset_to_default 501).1 (by decide),
   (list_limits_above_max_reset_to_default 101).2 (by decide)⟩

/-- C4, counterexample: `UpdateJobStatus` happily performs the forbidden
transition Completed → Running — there is no lifecycle guard, only a
row-existence check. -/
theorem updateJobStatus_allows_completed_to_running :
    updateJobStatus c4DB 1 .running = .ok [(1, { status := .running })] := by
  decide

/-- C4, amended: `UpdateJobStatus` succeeds for *every* requested status
whenever the job id exists (and fails only with `job not found`); in
particular an item already Running, Completed or Failed can be transitioned
to Running again, so the store does not bound the number of transitions to
Running. -/
theorem updateJobStatus_no_transition_guard (db : JobsDB) (id : Nat)
    (s : JobStatus) (h : ∃ r ∈ db, r.1 = id) :
    ∃ db', updateJobStatus db id s = .ok db' ∧
      ∃ row ∈ db', row.1 = id ∧ row.2.status = s := by
  obtain ⟨r, hr, hrid⟩ := h
  have hfil : (db.filter (fun r => r.1 = id)).length ≠ 0 := by
    intro h0
    rw [List.length_eq_zero] at h0
    have : r ∈ db.filter (fun r => r.1 = id) :=
      List.mem_filter.mpr ⟨hr, by simp [hrid]⟩
    simp [h0] at this
  refine ⟨db.map (fun p => if p.1 = id then (p.1, { p.2 with status := s }) else p),
    by simp only [updateJobStatus, if_neg hfil], ?_⟩
  refine ⟨(id, { r.2 with status := s }), ?_, rfl, rfl⟩
  have : (id, { r.2 with status := s }) =
      (fun p => if p.1 = id then (p.1, { p.2 with status := s }) else p) r := by
    simp [hrid]
  rw [this]
  exact List.mem_map_of_mem _ hr

/-- C4, witness for the amended theorem: the Completed job in `c4DB` is
moved back to Running. -/
theorem updateJobStatus_no_transition_guard_witness :
    ∃ db', updateJobStatus c4DB 1 .running = .ok db' ∧
      ∃ row ∈ db', row.1 = 1 ∧ row.2.status = .running :=
  updateJobStatus_no_transition_guard c4DB 1 .running (by decide)

/-- C3, counterexample: a submission at `now = 0` with deadline 60 seconds
away and no explicit duration (so the 10-minute = 600 s default applies) is
*accepted* (201, stored, scheduled at `now`), although
`scheduledTime + estimatedDuration = 0 + 600 > 60 = deadline`: the
feasibility check in `validateRequest` is skipped because the handler never
sets `MinStartTime`, and no other check compares duration to deadline. -/
theorem submitJob_accepts_infeasible_deadline :
    submitJob 0 c3Request {} c3Parse (.ok []) (.ok default) false true =
      .ok (c3Response, some c3Job) ∧
    c3Job.scheduledTime.getD 0 + 600 > c3Job.deadline := by
  decide

/-- C3, amended: the scheduler rejects a request whose earliest start is
explicitly set (non-zero) when `minStartTime + duration > deadline` (with a
non-zero deadline); with the defaulted earliest start the check is skipped,
and a submission can be accepted violating
`scheduledTime + estimatedDuration ≤ deadline`. -/
theorem schedule_rejects_explicit_infeasible_start (cfg : SchedulerConfig)
    (now : Int) (req : ScheduleRequest)
    (fr : Except String (List CarbonIntensity))
    (cr : Except String CarbonIntensity)
    (h1 : req.minStartTime ≠ 0) (h2 : req.deadline ≠ 0)
    (h3 : req.deadline < req.minStartTime + req.duration) :
    ∃ e, schedule cfg now req fr cr = .error e := by
  have hv : ∃ e, validateRequest now req = some e := by
    unfold validateRequest
    split_ifs with ha hb hc hd
    · exact ⟨_, rfl⟩
    · exact ⟨_, rfl⟩
    · exact ⟨_, rfl⟩
    · exact ⟨_, rfl⟩
    · exact absurd ⟨h1, h2, by omega⟩ hd
  obtain ⟨e, he⟩ := hv
  exact ⟨e, by simp [schedule, he]⟩

/-- C3, witness for the amended theorem: earliest start 30, duration 600,
deadline 60 is rejected. -/
theorem schedule_rejects_explicit_infeasible_start_witness :
    ∃ e, schedule {} 0
        { region := "US-EAST", duration := 600, deadline := 60,
          minStartTime := 30 } (.ok []) (.ok default) = .error e :=
  schedule_rejects_explicit_infeasible_start {} 0 _ _ _
    (by decide) (by decide) (by decide)

/-- C5, counterexample: dequeuing an entry for the already-Completed job 7
is *not* treated as spurious — `executeJob` runs the container and writes an
execution log for it, because the worker never inspects the fetched job's
status before transitioning it to Running. -/
theorem executeJob_runs_terminal_job :
    (executeJob c5DB 7 {} 0 240).containerExecuted = true ∧
    (executeJob c5DB 7 {} 0 240).logWritten ≠ none := by
  decide

/-- C5, amended: only the not-found case is treated as spurious (no state
change, no container execution, an error returned); every *found* work
item — whatever its status, terminal ones included — is transitioned to
Running and its container is executed. -/
theorem executeJob_spurious_only_when_missing (db : JobsDB) (id : Nat)
    (env : DockerEnv) (now finish : Int) :
    (db.find? (fun r => r.1 = id) = none →
      executeJob db id env now finish =
        { db := db, containerExecuted := false, logWritten := none,
          nilDeref := false,
          result := .error "failed to fetch job: job not found" }) ∧
    (∀ p, db.find? (fun r => r.1 = id) = some p →
      (executeJob db id env now finish).containerExecuted = true) := by
  constructor
  · intro h
    simp [executeJob, getJobByID, h]
  · intro p hp
    have hmem : p ∈ db := List.mem_of_find?_eq_some hp
    have hpid : p.1 = id := by
      have := List.find?_some hp
      simpa using this
    have hfil : ¬ (db.filter (fun r => r.1 = id)).length = 0 := by
      intro h0
      rw [List.length_eq_zero] at h0
      have : p ∈ db.filter (fun r => r.1 = id) :=
        List.mem_filter.mpr ⟨hmem, by simp [hpid]⟩
      simp [h0] at this
    simp only [executeJob, getJobByID, hp, updateJobStatus, if_neg hfil]
    rcases hrc : runContainer env now finish with ⟨o, er⟩
    cases o with
    | none => rfl
    | some res =>
      dsimp only
      split <;> rfl

/-- C5, witness for the amended theorem: job 7 is present in `c5DB`, so its
container is executed; job 9 is absent, so nothing happens. -/
theorem executeJob_spurious_only_when_missing_witness :
    (executeJob c5DB 7 {} 0 240).containerExecuted = true ∧
    executeJob c5DB 9 {} 0 240 =
      { db := c5DB, containerExecuted := false, logWritten := none,
        nilDeref := false,
        result := .error "failed to fetch job: job not found" } :=
  ⟨(executeJob_spurious_only_when_missing c5DB 7 {} 0 240).2
      (7, { status := .completed }) (by decide),
   (executeJob_spurious_only_when_missing c5DB 9 {} 0 240).1 (by decide)⟩

/-- The window built by the loop has exactly the window mean as its
`avgIntensity`. -/
theorem windowOf_avg (sd d : Int) (slots : List CarbonIntensity) (i k : Nat) :
    (windowOf sd d slots i k).avgIntensity = windowMean slots i k := rfl

/-- Invariant of the sliding-window fold over the first `m` window
positions: the tracked optimum is a genuine window, its mean is minimal
among positions below `m`, and it sits at the earliest index attaining that
mean (the strict `<` comparison never replaces the optimum on a tie). -/
theorem slideRange_best_spec (sd d : Int) (slots : List CarbonIntensity)
    (k : Nat) (m : Nat) (hm : 1 ≤ m) :
    ∃ i w,
      ((List.range m).foldl (slideStep sd d slots k) ⟨none, []⟩).best
          = some (i, w) ∧
      w = windowOf sd d slots i k ∧ i < m ∧
      (∀ j, j < m → windowMean slots i k ≤ windowMean slots j k) ∧
      (∀ j, j < m → windowMean slots j k = windowMean slots i k → i ≤ j) := by
  induction m with
  | zero => omega
  | succ n ih =>
    rw [List.range_succ, List.foldl_append, List.foldl_cons, List.foldl_nil]
    rcases Nat.eq_zero_or_pos n with hn | hn
    · subst hn
      refine ⟨0, windowOf sd d slots 0 k, ?_, rfl, Nat.zero_lt_one, ?_, ?_⟩
      · simp [slideStep]
      · intro j hj
        interval_cases j
        exact le_refl _
      · intro j _ _
        omega
    · obtain ⟨i, w, hbest, hw, him, hmin, htie⟩ := ih hn
      set acc := (List.range n).foldl (slideStep sd d slots k) ⟨none, []⟩
        with hacc
      by_cases hlt : windowMean slots n k < windowMean slots i k
      · refine ⟨n, windowOf sd d slots n k, ?_, rfl, Nat.lt_succ_self n,
          ?_, ?_⟩
        · unfold slideStep
          rw [hbest]
          dsimp only
          rw [if_pos (by rw [windowOf_avg, hw, windowOf_avg]; exact hlt)]
        · intro j hj
          rcases Nat.lt_succ_iff_lt_or_eq.mp hj with hj | hj
          · exact le_of_lt (lt_of_lt_of_le hlt (hmin j hj))
          · subst hj
            exact le_refl _
        · intro j hj hje
          rcases Nat.lt_succ_iff_lt_or_eq.mp hj with hj | hj
          · exact absurd hje (ne_of_gt (lt_of_lt_of_le hlt (hmin j hj)))
          · omega
      · have hstep : (slideStep sd d slots k acc n).best = acc.best := by
          unfold slideStep
          rw [hbest]
          dsimp only
          rw [if_neg (by rw [windowOf_avg, hw, windowOf_avg]; exact hlt)]
          split
          · rfl
          · exact hbest
        refine ⟨i, w, by rw [hstep, hbest], hw, Nat.lt_succ_of_lt him,
          ?_, ?_⟩
        · intro j hj
          rcases Nat.lt_succ_iff_lt_or_eq.mp hj with hj | hj
          · exact hmin j hj
          · subst hj
            exact le_of_not_lt hlt
        · intro j hj hje
          rcases Nat.lt_succ_iff_lt_or_eq.mp hj with hj | hj
          · exact htie j hj hje
          · omega

/-- C2: the sliding-window minimization is correct — for every slot
sequence and window size `k ≤ n`, the loop's returned window is a real
window whose mean is ≤ the mean of every contiguous window of `k` slots,
and on an exact tie of means the window with the lower starting index is
kept (the code replaces the optimum only on a strictly smaller mean). -/
theorem optimal_window_minimizes_mean (sd d : Int)
    (slots : List CarbonIntensity) (k : Nat) (_hk : 1 ≤ k)
    (hkn : k ≤ slots.length) :
    ∃ i w, (slideRun sd d slots k).best = some (i, w) ∧
      w.avgIntensity = windowMean slots i k ∧ i + k ≤ slots.length ∧
      (∀ j, j + k ≤ slots.length → w.avgIntensity ≤ windowMean slots j k) ∧
      (∀ j, j + k ≤ slots.length → windowMean slots j k = w.avgIntensity →
        i ≤ j) := by
  obtain ⟨i, w, hbest, hw, him, hmin, htie⟩ :=
    slideRange_best_spec sd d slots k (slots.length - k + 1) (by omega)
  refine ⟨i, w, hbest, by rw [hw, windowOf_avg], by omega, ?_, ?_⟩
  · intro j hj
    rw [hw, windowOf_avg]
    exact hmin j (by omega)
  · intro j hj hje
    refine htie j (by omega) ?_
    rw [hw, windowOf_avg] at hje
    exact hje

/-- C2, witness: the E1 forecast with a two-slot window. -/
theorem optimal_window_minimizes_mean_witness :
    ∃ i w, (slideRun 3600 7200 e1Forecast 2).best = some (i, w) ∧
      w.avgIntensity = windowMean e1Forecast i 2 ∧
      i + 2 ≤ e1Forecast.length ∧
      (∀ j, j + 2 ≤ e1Forecast.length →
        w.avgIntensity ≤ windowMean e1Forecast j 2) ∧
      (∀ j, j + 2 ≤ e1Forecast.length →
        windowMean e1Forecast j 2 = w.avgIntensity → i ≤ j) :=
  optimal_window_minimizes_mean 3600 7200 e1Forecast 2
    (by decide) (by decide)

/-- Shared helper: the point-query breaker call yields the static fallback
(and no error) whenever the circuit is Open within its timeout or the
provider call fails. -/
theorem breakerGetCarbonIntensity_fallback (cfg : CircuitBreakerConfig)
    (s : CircuitBreakerState) (now : Int) (region : String) (ts : Int)
    (svc : Except String CarbonIntensity)
    (h : (s.state = .opened ∧ now - s.lastStateTime < cfg.timeout) ∨
         ∃ e, svc = .error e) :
    (breakerGetCarbonIntensity cfg s now region ts svc).result =
      .ok (fallbackIntensity cfg region ts) := by
  rcases h with ⟨hopen, htime⟩ | ⟨e, he⟩
  · have hca : canAttempt cfg s now = (false, s) := by
      unfold canAttempt
      rw [hopen]
      dsimp only
      rw [if_neg (by omega)]
    unfold breakerGetCarbonIntensity
    rw [hca]
    rfl
  · subst he
    unfold breakerGetCarbonIntensity
    rcases hca : canAttempt cfg s now with ⟨allow, s1⟩
    cases allow <;> rfl

/-- Shared helper: the range-query breaker call yields the static fallback
forecast (and no error) under the same conditions. -/
theorem breakerGetCarbonForecast_fallback (cfg : CircuitBreakerConfig)
    (s : CircuitBreakerState) (now : Int) (region : String)
    (startTime endTime : Int)
    (svc : Except String (List CarbonIntensity))
    (h : (s.state = .opened ∧ now - s.lastStateTime < cfg.timeout) ∨
         ∃ e, svc = .error e) :
    (breakerGetCarbonForecast cfg s now region startTime endTime svc).result =
      .ok (fallbackForecast cfg region startTime endTime) := by
  rcases h with ⟨hopen, htime⟩ | ⟨e, he⟩
  · have hca : canAttempt cfg s now = (false, s) := by
      unfold canAttempt
      rw [hopen]
      dsimp only
      rw [if_neg (by omega)]
    unfold breakerGetCarbonForecast
    rw [hca]
    rfl
  · subst he
    unfold breakerGetCarbonForecast
    rcases hca : canAttempt cfg s now with ⟨allow, s1⟩
    cases allow <;> rfl

/-- C6: when the breaker is Open (within its timeout) or the underlying
provider call fails, both query shapes return a value and never an error:
the point query returns the configured static fallback intensity, and the
range query returns the static hourly fallback forecast, whose samples all
carry the static fallback intensity at hourly timestamps from the start of
the requested range (one sample per started hour strictly before its end). -/
theorem breaker_open_or_failure_returns_fallback
    (cfg : CircuitBreakerConfig) (s : CircuitBreakerState) (now : Int)
    (region : String) (ts startTime endTime : Int)
    (svc : Except String CarbonIntensity)
    (svcF : Except String (List CarbonIntensity))
    (hp : (s.state = .opened ∧ now - s.lastStateTime < cfg.timeout) ∨
          ∃ e, svc = .error e)
    (hf : (s.state = .opened ∧ now - s.lastStateTime < cfg.timeout) ∨
          ∃ e, svcF = .error e) :
    (breakerGetCarbonIntensity cfg s now region ts svc).result =
        .ok (fallbackIntensity cfg region ts) ∧
    (breakerGetCarbonForecast cfg s now region startTime endTime svcF).result =
        .ok (fallbackForecast cfg region startTime endTime) ∧
    (∀ x ∈ fallbackForecast cfg region startTime endTime,
        x.intensity = cfg.staticFallback ∧ x.unit = "gCO2eq/kWh") ∧
    (∀ i : Nat, i < fallbackHourCount startTime endTime →
        (fallbackForecast cfg region startTime endTime)[i]? =
          some { region := region, timestamp := startTime + 3600 * (i : Int),
                 intensity := cfg.staticFallback, unit := "gCO2eq/kWh" }) := by
  refine ⟨breakerGetCarbonIntensity_fallback cfg s now region ts svc hp,
          breakerGetCarbonForecast_fallback cfg s now region startTime
            endTime svcF hf, ?_, ?_⟩
  · intro x hx
    simp only [fallbackForecast, List.mem_map, List.mem_range] at hx
    obtain ⟨i, _, rfl⟩ := hx
    exact ⟨rfl, rfl⟩
  · intro i hi
    rw [fallbackForecast, List.getElem?_map, List.getElem?_range hi]
    rfl

/-- C6, witness: a breaker opened at time −1 with `now = 0`, a failing
provider, and the range 0 … 2 hours. -/
theorem breaker_open_or_failure_returns_fallback_witness :
    (breakerGetCarbonIntensity {} c8OpenBreaker 0 "US-EAST" 0
        (.ok default)).result = .ok (fallbackIntensity {} "US-EAST" 0) ∧
    (breakerGetCarbonForecast {} c8OpenBreaker 0 "US-EAST" 0 7200
        (.error "provider down")).result =
      .ok (fallbackForecast {} "US-EAST" 0 7200) ∧
    (∀ x ∈ fallbackForecast {} "US-EAST" 0 7200,
        x.intensity = CircuitBreakerConfig.staticFallback {} ∧
        x.unit = "gCO2eq/kWh") ∧
    (∀ i : Nat, i < fallbackHourCount 0 7200 →
        (fallbackForecast {} "US-EAST" 0 7200)[i]? =
          some { region := "US-EAST", timestamp := 0 + 3600 * (i : Int),
                 intensity := CircuitBreakerConfig.staticFallback {},
                 unit := "gCO2eq/kWh" }) :=
  breaker_open_or_failure_returns_fallback {} c8OpenBreaker 0 "US-EAST"
    0 0 7200 (.ok default) (.error "provider down")
    (Or.inl ⟨rfl, by decide⟩) (Or.inr ⟨_, rfl⟩)

/-- Helper: a breaker that is Open stays Open under `recordFailure`. -/
theorem recordFailure_opened (cfg : CircuitBreakerConfig)
    (s : CircuitBreakerState) (now : Int) (h : s.state = .opened) :
    (recordFailure cfg s now).state = .opened := by
  unfold recordFailure
  rw [h]

/-- Helper: folding `recordFailure` over any nonempty run of failure times
starting Closed with enough failures pending ends Open. -/
theorem foldl_recordFailure_opens (cfg : CircuitBreakerConfig) :
    ∀ (ts : List Int) (s : CircuitBreakerState),
      (s.state = .opened ∨
        (s.state = .closed ∧ cfg.maxFailures ≤ s.failures + ts.length ∧
          1 ≤ ts.length)) →
      (ts.foldl (recordFailure cfg) s).state = .opened := by
  intro ts
  induction ts with
  | nil =>
    intro s h
    rcases h with h | ⟨_, _, h2⟩
    · simpa using h
    · simp at h2
  | cons t rest ih =>
    intro s h
    simp only [List.foldl_cons]
    apply ih
    rcases h with h | ⟨h1, h2, _⟩
    · exact Or.inl (recordFailure_opened cfg s t h)
    · by_cases hge : cfg.maxFailures ≤ s.failures + 1
      · refine Or.inl ?_
        unfold recordFailure
        rw [h1]
        dsimp only
        rw [if_pos hge]
      · refine Or.inr ⟨?_, ?_, ?_⟩
        · unfold recordFailure
          rw [h1]
          dsimp only
          rw [if_neg hge]
        · have : (recordFailure cfg s t).failures = s.failures + 1 := by
            unfold recordFailure
            rw [h1]
            dsimp only
            rw [if_neg hge]
          rw [this]
          simp only [List.length_cons] at h2
          omega
        · simp only [List.length_cons] at h2
          omega

/-- C7: the breaker's state machine behaves as specified — (1) from the
freshly constructed Closed state, any run of `MaxFailures` recorded
failures ends Open; (2) a request arriving in Open after `Timeout` has
elapsed since the last state change moves the breaker to HalfOpen and is
allowed through; (3) a success in HalfOpen closes the breaker and zeroes
the failures counter; (4) a failure in HalfOpen reopens the breaker and
resets the last-state-transition time; (5) while Open before `Timeout`
elapses, no provider call is issued on either query shape; and (6) `Reset`
forces Closed with a zero failures counter. -/
theorem circuit_breaker_state_machine (cfg : CircuitBreakerConfig)
    (hmax : 1 ≤ cfg.maxFailures) :
    (∀ (t0 : Int) (ts : List Int), ts.length = cfg.maxFailures →
        (ts.foldl (recordFailure cfg) (initialBreakerState t0)).state =
          .opened) ∧
    (∀ (s : CircuitBreakerState) (now : Int), s.state = .opened →
        cfg.timeout ≤ now - s.lastStateTime →
        canAttempt cfg s now =
          (true, { s with state := .halfOpen
                          lastStateTime := now
                          successCount := 0 })) ∧
    (∀ (s : CircuitBreakerState) (now : Int), s.state = .halfOpen →
        (recordSuccess s now).state = .closed ∧
        (recordSuccess s now).failures = 0) ∧
    (∀ (s : CircuitBreakerState) (now : Int), s.state = .halfOpen →
        (recordFailure cfg s now).state = .opened ∧
        (recordFailure cfg s now).lastStateTime = now) ∧
    (∀ (s : CircuitBreakerState) (now : Int) (region : String) (ts1 : Int)
        (svc : Except String CarbonIntensity) (startT endT : Int)
        (svcF : Except String (List CarbonIntensity)),
        s.state = .opened → now - s.lastStateTime < cfg.timeout →
        (breakerGetCarbonIntensity cfg s now region ts1 svc).providerCalled
            = false ∧
        (breakerGetCarbonForecast cfg s now region startT endT
            svcF).providerCalled = false) ∧
    (∀ (s : CircuitBreakerState) (now : Int),
        (resetBreaker s now).state = .closed ∧
        (resetBreaker s now).failures = 0) := by
  refine ⟨?_, ?_, ?_, ?_, ?_, ?_⟩
  · intro t0 ts hlen
    apply foldl_recordFailure_opens
    refine Or.inr ⟨rfl, ?_, ?_⟩ <;> simp [initialBreakerState, hlen, hmax]
  · intro s now hst htime
    unfold canAttempt
    rw [hst]
    dsimp only
    rw [if_pos htime]
  · intro s now hst
    unfold recordSuccess
    rw [hst]
    exact ⟨rfl, rfl⟩
  · intro s now hst
    unfold recordFailure
    rw [hst]
    exact ⟨rfl, rfl⟩
  · intro s now region ts1 svc startT endT svcF hst htime
    have hca : canAttempt cfg s now = (false, s) := by
      unfold canAttempt
      rw [hst]
      dsimp only
      rw [if_neg (by omega)]
    constructor
    · unfold breakerGetCarbonIntensity
      rw [hca]
      rfl
    · unfold breakerGetCarbonForecast
      rw [hca]
      rfl
  · intro s now
    exact ⟨rfl, rfl⟩

/-- C7, witness: the default configuration, five failures at times 1 … 5
from a fresh breaker, and concrete states for the remaining clauses. -/
theorem circuit_breaker_state_machine_witness :
    (([1, 2, 3, 4, 5] : List Int).foldl (recordFailure {})
        (initialBreakerState 0)).state = .opened ∧
    canAttempt {} c8OpenBreaker 29 =
      (true, { c8OpenBreaker with state := .halfOpen
                                  lastStateTime := 29
                                  successCount := 0 }) ∧
    (recordSuccess { c8OpenBreaker with state := .halfOpen } 3).state =
        .closed ∧
    (recordSuccess { c8OpenBreaker with state := .halfOpen } 3).failures
        = 0 ∧
    (recordFailure {} { c8OpenBreaker with state := .halfOpen } 4).state =
        .opened ∧
    (breakerGetCarbonIntensity {} c8OpenBreaker 0 "US-EAST" 0
        (.ok default)).providerCalled = false ∧
    (resetBreaker c8OpenBreaker 9).state = .closed :=
  ⟨(circuit_breaker_state_machine {} (by decide)).1 0 [1, 2, 3, 4, 5]
      (by decide),
   (circuit_breaker_state_machine {} (by decide)).2.1 c8OpenBreaker 29 rfl
      (by decide),
   ((circuit_breaker_state_machine {} (by decide)).2.2.1
      { c8OpenBreaker with state := .halfOpen } 3 rfl).1,
   ((circuit_breaker_state_machine {} (by decide)).2.2.1
      { c8OpenBreaker with state := .halfOpen } 3 rfl).2,
   ((circuit_breaker_state_machine {} (by decide)).2.2.2.1
      { c8OpenBreaker with state := .halfOpen } 4 rfl).1,
   ((circuit_breaker_state_machine {} (by decide)).2.2.2.2.1 c8OpenBreaker
      0 "US-EAST" 0 (.ok default) 0 0 (.ok []) rfl (by decide)).1,
   ((circuit_breaker_state_machine {} (by decide)).2.2.2.2.2 c8OpenBreaker
      9).1⟩

/-- C8, counterexample: with the production wiring (breaker as the
fetcher's service), a point query at `now = 0` finds the stale-but-present
cache entry (intensity 350) yet returns the breaker's static fallback
(intensity 400) — not the stale entry — because the breaker reports the
fallback as a *successful* value and the fetcher's stale-cache branch fires
only on an error from its service.  The fetcher even writes the synthetic
fallback into the cache. -/
theorem fetcher_returns_fallback_not_stale_cache :
    (fetcherGetCarbonIntensity {} {} c8OpenBreaker 0 "US-EAST" 0
        (.ok (some c8StaleEntry)) (.ok default)).result =
      .ok (fallbackIntensity {} "US-EAST" 0) ∧
    (fetcherGetCarbonIntensity {} {} c8OpenBreaker 0 "US-EAST" 0
        (.ok (some c8StaleEntry)) (.ok default)).cacheWrite =
      some (fallbackIntensity {} "US-EAST" 0) ∧
    fallbackIntensity {} "US-EAST" 0 ≠ entryToIntensity c8StaleEntry := by
  refine ⟨by decide, by decide, ?_⟩
  intro h
  have : ((400 : ℚ)) = 350 := congrArg CarbonIntensity.intensity h
  norm_num at this

/-- C8, amended: when a stale-but-present cache entry exists and the
breaker layer produces the static fallback (breaker Open within its
timeout, or provider failure), the composed fetcher returns the static
fallback — and caches it — rather than the stale entry; the stale entry is
preferred only when the service call returns an error, which the breaker
never does on those paths. -/
theorem fetcher_prefers_breaker_fallback_over_stale_cache
    (fc : FetcherConfig) (cfg : CircuitBreakerConfig)
    (cbs : CircuitBreakerState) (now : Int) (region : String)
    (timestamp : Int)
    (cacheResult : Except String (Option CarbonCacheEntry))
    (svc : Except String CarbonIntensity) (e : CarbonCacheEntry)
    (hc : cachedEntryOf cacheResult = some e)
    (hstale : isCacheFresh now e fc.maxCacheAge = false)
    (hb : (cbs.state = .opened ∧ now - cbs.lastStateTime < cfg.timeout) ∨
          ∃ er, svc = .error er) :
    (fetcherGetCarbonIntensity fc cfg cbs now region timestamp cacheResult
        svc).result = .ok (fallbackIntensity cfg region timestamp) ∧
    (fetcherGetCarbonIntensity fc cfg cbs now region timestamp cacheResult
        svc).cacheWrite = some (fallbackIntensity cfg region timestamp) := by
  have hbr := breakerGetCarbonIntensity_fallback cfg cbs now region
    timestamp svc hb
  unfold fetcherGetCarbonIntensity
  rw [hc]
  simp only [hstale, Bool.false_eq_true, if_false]
  rw [hbr]
  exact ⟨rfl, rfl⟩

/-- C8, witness for the amended theorem at the concrete stale entry and
Open breaker. -/
theorem fetcher_prefers_breaker_fallback_witness :
    (fetcherGetCarbonIntensity {} {} c8OpenBreaker 0 "US-EAST" 0
        (.ok (some c8StaleEntry)) (.error "provider down")).result =
      .ok (fallbackIntensity {} "US-EAST" 0) ∧
    (fetcherGetCarbonIntensity {} {} c8OpenBreaker 0 "US-EAST" 0
        (.ok (some c8StaleEntry)) (.error "provider down")).cacheWrite =
      some (fallbackIntensity {} "US-EAST" 0) :=
  fetcher_prefers_breaker_fallback_over_stale_cache {} {} c8OpenBreaker 0
    "US-EAST" 0 (.ok (some c8StaleEntry)) (.error "provider down")
    c8StaleEntry rfl (by decide) (Or.inr ⟨_, rfl⟩)

/-- C10: `RunContainer` returns a non-nil `ContainerResult` on every path —
success and each failure path (pull, create, start, wait error,
cancellation, log retrieval, log copy) — with the `Error` field set exactly
when a non-nil error is also returned; consequently the worker's
unconditional reads of the result's fields right after the call never
dereference a nil result (`nilDeref` is false on every run). -/
theorem runContainer_never_returns_nil_result (env : DockerEnv)
    (now finish : Int) (db : JobsDB) (id : Nat) :
    (∃ r, (runContainer env now finish).1 = some r ∧
      ((runContainer env now finish).2 = none ∨
       ∃ e, (runContainer env now finish).2 = some e ∧ r.error = some e)) ∧
    (executeJob db id env now finish).nilDeref = false := by
  have hmain : ∃ r, (runContainer env now finish).1 = some r ∧
      ((runContainer env now finish).2 = none ∨
       ∃ e, (runContainer env now finish).2 = some e ∧ r.error = some e) := by
    obtain ⟨pe, cr, se, wo, le, scr⟩ := env
    unfold runContainer
    cases pe with
    | some e => exact ⟨_, rfl, Or.inr ⟨e, rfl, rfl⟩⟩
    | none =>
      cases cr with
      | error e => exact ⟨_, rfl, Or.inr ⟨_, rfl, rfl⟩⟩
      | ok cid =>
        cases se with
        | some e => exact ⟨_, rfl, Or.inr ⟨_, rfl, rfl⟩⟩
        | none =>
          cases wo with
          | waitErr e => exact ⟨_, rfl, Or.inr ⟨_, rfl, rfl⟩⟩
          | ctxCancelled => exact ⟨_, rfl, Or.inr ⟨_, rfl, rfl⟩⟩
          | exited code =>
            cases le with
            | some e => exact ⟨_, rfl, Or.inr ⟨_, rfl, rfl⟩⟩
            | none =>
              cases scr with
              | error e => exact ⟨_, rfl, Or.inr ⟨_, rfl, rfl⟩⟩
              | ok p => exact ⟨_, rfl, Or.inl rfl⟩
  refine ⟨hmain, ?_⟩
  obtain ⟨r, hr, _⟩ := hmain
  unfold executeJob
  rcases h1 : getJobByID db id with e | j
  · rfl
  · rcases h2 : updateJobStatus db id .running with e | db1
    · rfl
    · rcases hrc : runContainer env now finish with ⟨o, er⟩
      rw [hrc] at hr
      cases o with
      | none => simp at hr
      | some res =>
        dsimp only
        split <;> rfl

end Karbos
